import Mathlib

/-!
Verification development for the `atracker` activity tracker.

This file gives a shallow embedding in Lean 4 of the core of the repository:

* the segmentation watcher (`src/atracker/watcher.py`): the flush operation
  `Watcher._flush_current_event`, the per-tick polling logic `Watcher._poll`,
  and the clock-jump handling of the main loop in `Watcher.start`;
* the classification and aggregation engine (`src/atracker/api.py`):
  `_get_matched_category`, the live-blend block of the `summary` endpoint,
  and the context-switch metric of `get_metrics`.

Modelling conventions:

* Wall-clock timestamps and durations are rationals (`ℚ`), in seconds
  (idle durations in milliseconds, matching the source).  The source uses
  Python `datetime`/`float`; exact rational arithmetic stands in for it.
* All `datetime.now()` reads inside one loop iteration (one tick) are
  modelled as the same instant `t`; the run of the watcher is driven by an
  explicit list of `(input, time)` pairs with monotone times.
* The Python regex engine (`re.search`) is an external collaborator; it is
  modelled as an explicit function parameter `research : String → String →
  Bool` (pattern, text ↦ matched).  For concrete witnesses,
  `pyRegexLit` implements the semantics of `re.search(pat, text, re.I)`
  for the patterns actually used there (plain literal strings, and `".*"`
  which matches every string).
* Database persistence (`db.insert_event`) is modelled by returning the
  inserted `ActivityEvent`; queries are modelled over explicit lists of rows.
-/

namespace ATracker

/-! ### Literal string search (model of `re.search` on literal patterns) -/

/-- Predicate `charsLead p t` holds when `p` is an initial run of `t` (character lists). -/
def charsLead : List Char → List Char → Bool
  | [], _ => true
  | _ :: _, [] => false
  | a :: as, b :: bs => a == b && charsLead as bs

/-- Search `charsFind p t`: the pattern `p` occurs contiguously somewhere inside `t`. -/
def charsFind (p : List Char) : List Char → Bool
  | [] => charsLead p []
  | c :: rest => charsLead p (c :: rest) || charsFind p rest

/-- Case-sensitive literal substring search, modelling `re.search(pat, text)`
for a pattern with no regex metacharacters. -/
def searchLit (pat text : String) : Bool :=
  charsFind pat.toList text.toList

/-- Case-insensitive literal substring search, modelling
`re.search(pat, text, re.IGNORECASE)` for a metacharacter-free pattern. -/
def searchLitI (pat text : String) : Bool :=
  charsFind pat.toLower.toList text.toLower.toList

/-- One admissible model of `re.search(pat, text, re.I)` covering the patterns
appearing concretely in this development: the pattern `".*"` matches every
string (a zero-length match is truthy in Python), and every other pattern used
here is a literal, matched case-insensitively as a substring. -/
def pyRegexLit (pat text : String) : Bool :=
  if pat = ".*" then true else searchLitI pat text

/-! ### Data model -/

/-- A filter rule, as stored in the `filter_rules` table and returned by
`db.get_filter_rules` (`rule_type` is `'ignore'` or `'redact'`). -/
structure FilterRule where
  rule_type : String
  wm_class_pattern : String
  title_pattern : String
deriving Repr, DecidableEq

/-- A persisted activity event, as inserted by `db.insert_event`. -/
structure ActivityEvent where
  timestamp : ℚ
  end_timestamp : ℚ
  wm_class : String
  title : String
  pid : ℕ
  duration_secs : ℚ
  is_idle : Bool
deriving Repr, DecidableEq

/-- The mutable state of a `Watcher` instance (`watcher.py`), after
`Watcher.start` has initialised it: the open-segment fields
(`_current_wm_class`, `_current_title`, `_current_pid`, `_current_start`),
`_last_poll_time`, the idle flag, the cached filter rules and the
configuration values. -/
structure WatcherState where
  current_wm_class : String
  current_title : String
  current_pid : ℕ
  current_start : Option ℚ
  last_poll_time : Option ℚ
  is_idle : Bool
  filter_rules : List FilterRule
  poll_interval : ℚ
  idle_threshold : ℚ
deriving Repr, DecidableEq

/-- The probe's window sample (`_get_active_window` result). -/
structure WinInfo where
  wm_class : String
  title : String
  pid : ℕ
deriving Repr, DecidableEq

/-- The external inputs consumed by one tick of the watcher loop: the pause
flag (`db.get_paused()`), the idle duration in milliseconds
(`_get_idle_time`, which returns `0` on failure), and the window sample
(`none` models a probe failure, in which case the tick is a no-op). -/
structure TickInput where
  paused : Bool
  idle_ms : ℚ
  win_info : Option WinInfo
deriving Repr, DecidableEq

/-- Model of Python `round(x, 1)` on exact rationals (the source stores
`round(duration, 1)` as `duration_secs`).  Python rounds float ties to even;
on exact rationals ties (exact multiples of 0.05) round half-up here — the
two agree everywhere a binary float is not exactly such a tie, which is the
faithful reading once floats are modelled as exact rationals. -/
def round1 (q : ℚ) : ℚ := (round (q * 10) : ℤ) / 10

/-! ### Filter rules (`Watcher._flush_current_event`, lines 296–313) -/

/-- The per-rule match of the flush loop: `match_class` is true when the
`wm_class_pattern` is empty or matches the segment's class, `match_title`
likewise against the (possibly already redacted) title. -/
def ruleMatches (research : String → String → Bool)
    (rule : FilterRule) (wm title : String) : Bool :=
  (if rule.wm_class_pattern ≠ "" then research rule.wm_class_pattern wm else true) &&
  (if rule.title_pattern ≠ "" then research rule.title_pattern title else true)

/-- The filter loop of `_flush_current_event`: rules are scanned in order; a
matching `ignore` rule returns immediately (`none` = discard), a matching
`redact` rule overwrites the working title with the placeholder and the loop
continues; any other rule leaves the title as is.  `some t` means: persist
with title `t`. -/
def runFilterRules (research : String → String → Bool) :
    List FilterRule → String → String → Option String
  | [], _, title => some title
  | rule :: rest, wm, title =>
    if ruleMatches research rule wm title then
      if rule.rule_type = "ignore" then none
      else if rule.rule_type = "redact" then runFilterRules research rest wm "[Redacted]"
      else runFilterRules research rest wm title
    else runFilterRules research rest wm title

/-- Sentinel identities (`__idle__`, `__paused__`) bypass the filter rules. -/
def filterOutcome (research : String → String → Bool)
    (rules : List FilterRule) (wm title : String) : Option String :=
  if wm = "__idle__" ∨ wm = "__paused__" then some title
  else runFilterRules research rules wm title

/-! ### Flush (`Watcher._flush_current_event`, lines 280–330) -/

/-- The close boundary: `end_time or datetime.now()`. -/
def flushBoundary (endT : Option ℚ) (tNow : ℚ) : ℚ := endT.getD tNow

/-- Model of `Watcher._flush_current_event(end_time)`, with `tNow` the value of
`datetime.now()` at the call.  Returns the updated state and the event
persisted via `db.insert_event`, if any.  Branches, in source order:
if `_current_start` is unset or the class is empty, only reset the start;
discard silently if the duration is below one second (note: the source does
*not* advance `_current_start` in this branch); otherwise run the filter
rules (sentinels bypass them) and either discard (ignore, advancing the
start) or persist, advancing the start to the boundary. -/
def flushCurrentEvent (research : String → String → Bool) (st : WatcherState)
    (endT : Option ℚ) (tNow : ℚ) : WatcherState × Option ActivityEvent :=
  match st.current_start with
  | none => ({ st with current_start := some (flushBoundary endT tNow) }, none)
  | some s =>
    if st.current_wm_class = "" then
      ({ st with current_start := some (flushBoundary endT tNow) }, none)
    else if flushBoundary endT tNow - s < 1 then (st, none)
    else
      match filterOutcome research st.filter_rules st.current_wm_class st.current_title with
      | none => ({ st with current_start := some (flushBoundary endT tNow) }, none)
      | some ti =>
        ({ st with current_start := some (flushBoundary endT tNow) },
         some { timestamp := s
                end_timestamp := flushBoundary endT tNow
                wm_class := st.current_wm_class
                title := ti
                pid := st.current_pid
                duration_secs := round1 (flushBoundary endT tNow - s)
                is_idle := st.current_wm_class == "__idle__" })

/-! ### One tick of the watcher loop (`Watcher._poll` and `Watcher.start`) -/

/-- The idle decision of one poll: `idle_ms > self._idle_threshold`. -/
def idleFlag (st : WatcherState) (inp : TickInput) : Bool :=
  st.idle_threshold < inp.idle_ms

/-- The middle of `_poll` (lines 144–172), after the pause check and the
become-idle check did not fire: `self._is_idle` has been assigned, and if the
user just returned from idle the idle segment is flushed (falling through to
the window check). -/
def pollIdleReturn (research : String → String → Bool) (st : WatcherState)
    (inp : TickInput) (t : ℚ) : WatcherState × List ActivityEvent :=
  if st.is_idle = true ∧ idleFlag st inp = false then
    ((flushCurrentEvent research { st with is_idle := idleFlag st inp } none t).1,
     (flushCurrentEvent research { st with is_idle := idleFlag st inp } none t).2.toList)
  else ({ st with is_idle := idleFlag st inp }, [])

/-- Model of `Watcher._poll` (lines 123–202), evaluated at instant `t`: pause check,
idle transition detection, then window-identity check, each closing the
current segment via `flushCurrentEvent` when it fires.  Returns the updated
state and the events persisted (the return-from-idle path can fall through
into the window check, so up to two flushes can happen). -/
def pollStep (research : String → String → Bool) (st : WatcherState)
    (inp : TickInput) (t : ℚ) : WatcherState × List ActivityEvent :=
  if inp.paused then
    if st.current_wm_class ≠ "__paused__" then
      ({ (flushCurrentEvent research st none t).1 with
           current_wm_class := "__paused__", current_title := "Paused",
           current_start := some t },
       (flushCurrentEvent research st none t).2.toList)
    else (st, [])
  else if idleFlag st inp = true ∧ st.is_idle = false then
    ({ (flushCurrentEvent research { st with is_idle := idleFlag st inp } none t).1 with
         current_wm_class := "__idle__", current_title := "Idle", current_pid := 0,
         current_start := some t },
     (flushCurrentEvent research { st with is_idle := idleFlag st inp } none t).2.toList)
  else if idleFlag st inp = true then pollIdleReturn research st inp t
  else
    match inp.win_info with
    | none => pollIdleReturn research st inp t
    | some w =>
      if w.wm_class ≠ (pollIdleReturn research st inp t).1.current_wm_class ∨
         w.title ≠ (pollIdleReturn research st inp t).1.current_title then
        ({ (flushCurrentEvent research (pollIdleReturn research st inp t).1 none t).1 with
             current_wm_class := w.wm_class, current_title := w.title,
             current_pid := w.pid, current_start := some t },
         (pollIdleReturn research st inp t).2 ++
           (flushCurrentEvent research (pollIdleReturn research st inp t).1 none t).2.toList)
      else pollIdleReturn research st inp t

/-- The clock-jump handling in `Watcher.start` (lines 71–78): on a gap of
more than four poll intervals, flush at the last good tick time and restart
the open segment at `t`. -/
def jumpState (research : String → String → Bool) (st : WatcherState)
    (lp t : ℚ) : WatcherState :=
  { (flushCurrentEvent research st (some lp) t).1 with current_start := some t }

/-- One iteration of the `while self._running` loop in `Watcher.start`
(lines 66–85), at instant `t`: clock-jump detection, then `_poll`, then the
update of `_last_poll_time`.  The settings refresh is modelled as the
identity (the rules and intervals are part of the state and change only
through it). -/
def tick (research : String → String → Bool) (st : WatcherState)
    (inp : TickInput) (t : ℚ) : WatcherState × List ActivityEvent :=
  match st.last_poll_time with
  | none =>
    ({ (pollStep research st inp t).1 with last_poll_time := some t },
     (pollStep research st inp t).2)
  | some lp =>
    if st.poll_interval * 4 < t - lp then
      ({ (pollStep research (jumpState research st lp t) inp t).1 with
           last_poll_time := some t },
       (flushCurrentEvent research st (some lp) t).2.toList ++
         (pollStep research (jumpState research st lp t) inp t).2)
    else
      ({ (pollStep research st inp t).1 with last_poll_time := some t },
       (pollStep research st inp t).2)

/-- A run of the watcher loop over a list of `(input, time)` pairs,
accumulating the persisted events in order. -/
def runTicks (research : String → String → Bool) :
    WatcherState → List (TickInput × ℚ) → WatcherState × List ActivityEvent
  | st, [] => (st, [])
  | st, (inp, t) :: rest =>
    ((runTicks research (tick research st inp t).1 rest).1,
     (tick research st inp t).2 ++ (runTicks research (tick research st inp t).1 rest).2)

/-- The watcher state right after `Watcher.start` has initialised it at time
`t0` (empty identity, `_current_start` and `_last_poll_time` set to now). -/
def initState (rules : List FilterRule) (pollI idleT t0 : ℚ) : WatcherState :=
  { current_wm_class := "", current_title := "", current_pid := 0,
    current_start := some t0, last_poll_time := some t0, is_idle := false,
    filter_rules := rules, poll_interval := pollI, idle_threshold := idleT }

/-! ### Category matching (`api._get_matched_category`, lines 538–574) -/

/-- A category row as read back by `db.get_categories`. -/
structure Category where
  name : String
  wm_class_pattern : String
  title_pattern : String
  is_case_sensitive : Bool
  color : String
deriving Repr, DecidableEq

/-- The per-category test of the first pass: non-empty title pattern, matched
case-sensitively against the raw title or case-insensitively against the
lowercased title, per the category flag.  `scs` models `re.search(p, s)` and
`sci` models `re.search(p, s, re.IGNORECASE)`. -/
def titleTest (scs sci : String → String → Bool) (title : String)
    (cat : Category) : Bool :=
  cat.title_pattern ≠ "" &&
    (if cat.is_case_sensitive then scs cat.title_pattern title
     else sci cat.title_pattern title.toLower)

/-- The per-category test of the second pass, against the wm_class. -/
def classTest (scs sci : String → String → Bool) (wm : String)
    (cat : Category) : Bool :=
  cat.wm_class_pattern ≠ "" &&
    (if cat.is_case_sensitive then scs cat.wm_class_pattern wm
     else sci cat.wm_class_pattern wm.toLower)

/-- The synthetic fallback returned when nothing matches.  The source returns
the dict `{"name": "Uncategorized", "color": "#64748b"}`; the pattern fields
it lacks are rendered as empty strings. -/
def uncategorized : Category :=
  { name := "Uncategorized", wm_class_pattern := "", title_pattern := "",
    is_case_sensitive := false, color := "#64748b" }

/-- First pass of `_get_matched_category`: scan the category list in order
returning the first whose title pattern matches. -/
def passTitle (scs sci : String → String → Bool) (title : String) :
    List Category → Option Category
  | [] => none
  | cat :: rest =>
    if titleTest scs sci title cat then some cat
    else passTitle scs sci title rest

/-- Second pass of `_get_matched_category`, over the wm_class patterns. -/
def passClass (scs sci : String → String → Bool) (wm : String) :
    List Category → Option Category
  | [] => none
  | cat :: rest =>
    if classTest scs sci wm cat then some cat
    else passClass scs sci wm rest

/-- Model of `api._get_matched_category(wm_class, title, categories)`. -/
def getMatchedCategory (scs sci : String → String → Bool)
    (wm title : String) (cats : List Category) : Category :=
  match passTitle scs sci title cats with
  | some cat => cat
  | none =>
    match passClass scs sci wm cats with
    | some cat => cat
    | none => uncategorized

/-! ### Live blend of the open segment into the summary
(`api.summary`, lines 173–216) -/

/-- The ephemeral current state published via `db.set_current_state`. -/
structure CurrentState where
  wm_class : String
  title : String
  timestamp : ℚ
  is_idle : Bool
deriving Repr, DecidableEq

/-- One row of `db.get_summary` (a `GROUP BY wm_class, title` aggregate). -/
structure SummaryRow where
  wm_class : String
  title : String
  total_secs : ℚ
  event_count : ℕ
  first_seen : ℚ
  last_seen : ℚ
deriving Repr, DecidableEq

/-- The group-matching test of the blend loop:
`r["wm_class"] == curr["wm_class"] and r.get("title", "") == curr.get("title", "")`. -/
def rowKeyMatches (r : SummaryRow) (c : CurrentState) : Bool :=
  r.wm_class == c.wm_class && r.title == c.title

/-- The `for r in rows` loop of `summary`: blend the open segment's elapsed
duration into the first row with the same `(wm_class, title)` key, also
bumping its count and last-seen time; report whether a row was found. -/
def blendLoop (c : CurrentState) (dur now : ℚ) :
    List SummaryRow → List SummaryRow × Bool
  | [] => ([], false)
  | r :: rest =>
    if rowKeyMatches r c then
      ({ r with total_secs := r.total_secs + dur, event_count := r.event_count + 1,
                last_seen := now } :: rest, true)
    else
      let p := blendLoop c dur now rest
      (r :: p.1, p.2)

/-- Descending order on `total_secs` (the sort key of
`rows.sort(key=lambda x: x["total_secs"], reverse=True)`). -/
def rowsDescRel (a b : SummaryRow) : Prop := b.total_secs ≤ a.total_secs

instance : DecidableRel rowsDescRel := fun a b =>
  inferInstanceAs (Decidable (b.total_secs ≤ a.total_secs))

instance : IsTotal SummaryRow rowsDescRel :=
  ⟨fun a b => le_total b.total_secs a.total_secs⟩

instance : IsTrans SummaryRow rowsDescRel :=
  ⟨fun _ _ _ h1 h2 => le_trans h2 h1⟩

/-- Model of Python's stable `list.sort(key=..., reverse=True)` as a stable
sort by the descending relation (any stable sort computes the same list). -/
def sortRowsDesc (rows : List SummaryRow) : List SummaryRow :=
  List.insertionSort rowsDescRel rows

/-- The synthetic group appended when no persisted group matches the open
segment. -/
def freshRow (c : CurrentState) (dur now : ℚ) : SummaryRow :=
  { wm_class := c.wm_class, title := c.title, total_secs := dur,
    event_count := 1, first_seen := c.timestamp, last_seen := now }

/-- The live-blend block of the `summary` endpoint for a query date equal to
today (lines 179–207): if the published current state is non-idle with a
non-empty identity that is not the idle sentinel, blend its elapsed duration
`now - timestamp` into the rows and re-sort descending by `total_secs`. -/
def blendCurrent : List SummaryRow → Option CurrentState → ℚ → List SummaryRow
  | rows, none, _ => rows
  | rows, some c, now =>
    if c.is_idle = false ∧ c.wm_class ≠ "" ∧ c.wm_class ≠ "__idle__" then
      sortRowsDesc
        (if (blendLoop c (now - c.timestamp) now rows).2 then
          (blendLoop c (now - c.timestamp) now rows).1
         else (blendLoop c (now - c.timestamp) now rows).1 ++
           [freshRow c (now - c.timestamp) now])
    else rows

/-! ### Context-switch metric (`api.get_metrics`, lines 318–355) -/

/-- One timeline block, as returned by `db.get_timeline` (ordered by
timestamp). -/
structure TimelineRow where
  wm_class : String
  is_idle : Bool
  duration_secs : ℚ
deriving Repr, DecidableEq

/-- The `for row in timeline_rows` loop of `get_metrics`, threading the
`last_app` register (reset to `None` by idle rows) and the switch and
active-seconds accumulators. -/
def metricsLoop : List TimelineRow → Option String → ℕ → ℚ → ℕ × ℚ
  | [], _, sw, act => (sw, act)
  | row :: rest, lastApp, sw, act =>
    if row.is_idle then metricsLoop rest none sw act
    else
      metricsLoop rest (some row.wm_class)
        (if lastApp ≠ none ∧ lastApp ≠ some row.wm_class then sw + 1 else sw)
        (act + row.duration_secs)

/-- The number of context switches computed by `get_metrics`. -/
def contextSwitches (rows : List TimelineRow) : ℕ :=
  (metricsLoop rows none 0 0).1

/-- The active seconds computed by `get_metrics`. -/
def metricsActiveSecs (rows : List TimelineRow) : ℚ :=
  (metricsLoop rows none 0 0).2

/-- The penalty function of `get_metrics`: `max(0, 100 - (switches * 2))`. -/
def focusScoreOf (n : ℕ) : ℤ := max 0 (100 - (n : ℤ) * 2)

/-- The focus score returned by `get_metrics`. -/
def focusScore (rows : List TimelineRow) : ℤ :=
  focusScoreOf (contextSwitches rows)

/-- Specification-side definition of the switch count, as the claim words it —
iterate in time order, never count a transition out of an idle block, count
each non-idle block whose app identity differs from the immediately
preceding non-idle block (with idle blocks resetting that notion).  This is
exactly the number of adjacent pairs of non-idle blocks with differing
identities. -/
def specSwitchCount : List TimelineRow → ℕ
  | a :: b :: rest =>
    (if a.is_idle = false ∧ b.is_idle = false ∧ a.wm_class ≠ b.wm_class then 1 else 0) +
      specSwitchCount (b :: rest)
  | _ => 0

/-! ### Trace invariants for the segmentation machine -/

/-- The events of a trace are chronologically disjoint: every earlier event
ends no later than every later event starts. -/
def EvChain (ev : List ActivityEvent) : Prop :=
  List.Pairwise (fun A B => A.end_timestamp ≤ B.timestamp) ev

/-- Every event of the trace ends at or before the bound `b`. -/
def EvBound (ev : List ActivityEvent) (b : ℚ) : Prop :=
  ∀ e ∈ ev, e.end_timestamp ≤ b

/-- Boolean monotonicity of the tick times, starting from `t0`. -/
def timesMonoB : ℚ → List (TickInput × ℚ) → Bool
  | _, [] => true
  | t0, (_, t) :: rest => decide (t0 ≤ t) && timesMonoB t rest

theorem evBound_mono {ev : List ActivityEvent} {b b' : ℚ}
    (h : EvBound ev b) (hbb : b ≤ b') : EvBound ev b' :=
  fun e he => le_trans (h e he) hbb

theorem evBound_append {ev : List ActivityEvent} {b : ℚ} {e : ActivityEvent}
    (h : EvBound ev b) (he : e.end_timestamp ≤ b) : EvBound (ev ++ [e]) b := by
  intro x hx
  rcases List.mem_append.mp hx with hx | hx
  · exact h x hx
  · simp only [List.mem_singleton] at hx
    exact hx ▸ he

theorem evChain_append {ev : List ActivityEvent} {b : ℚ} {e : ActivityEvent}
    (hchain : EvChain ev) (hbound : EvBound ev b) (hb : b ≤ e.timestamp) :
    EvChain (ev ++ [e]) := by
  refine List.pairwise_append.mpr ⟨hchain, List.pairwise_singleton _ _, ?_⟩
  intro a ha e' he'
  simp only [List.mem_singleton] at he'
  exact he' ▸ le_trans (hbound a ha) hb

/-- All `flushCurrentEvent` does to the state is replace `_current_start`. -/
theorem flush_fst (research : String → String → Bool) (st : WatcherState)
    (endT : Option ℚ) (tNow : ℚ) :
    ∃ o, (flushCurrentEvent research st endT tNow).1 = { st with current_start := o } := by
  unfold flushCurrentEvent
  cases hcs : st.current_start with
  | none => exact ⟨some (flushBoundary endT tNow), rfl⟩
  | some s =>
    simp only
    split
    · exact ⟨some (flushBoundary endT tNow), rfl⟩
    · split
      · exact ⟨some s, by rw [← hcs]⟩
      · split
        · exact ⟨some (flushBoundary endT tNow), rfl⟩
        · exact ⟨some (flushBoundary endT tNow), rfl⟩

/-- Case analysis of the flush at a boundary `b` not before the open
segment's start: either nothing is persisted and the start stays or moves to
`b`, or one event `[s, b]` with the open segment's identity is persisted
(forcing `duration ≥ 1`) and the start moves to `b`. -/
theorem flush_cases (research : String → String → Bool) (st : WatcherState)
    (endT : Option ℚ) (tNow : ℚ) (s : ℚ) (hs : st.current_start = some s)
    (_hb : s ≤ flushBoundary endT tNow) :
    ((flushCurrentEvent research st endT tNow).2 = none ∧
      ((flushCurrentEvent research st endT tNow).1.current_start = some s ∨
       (flushCurrentEvent research st endT tNow).1.current_start =
         some (flushBoundary endT tNow))) ∨
    (∃ e, (flushCurrentEvent research st endT tNow).2 = some e ∧
      (flushCurrentEvent research st endT tNow).1.current_start =
        some (flushBoundary endT tNow) ∧
      e.timestamp = s ∧ e.end_timestamp = flushBoundary endT tNow ∧
      s + 1 ≤ flushBoundary endT tNow ∧
      e.wm_class = st.current_wm_class ∧ e.wm_class ≠ "") := by
  unfold flushCurrentEvent
  rw [hs]
  simp only
  split
  · exact Or.inl ⟨rfl, Or.inr rfl⟩
  · split
    next hlt => exact Or.inl ⟨rfl, Or.inl (by rw [hs])⟩
    next hwm hlt =>
      split
      · exact Or.inl ⟨rfl, Or.inr rfl⟩
      · refine Or.inr ⟨_, rfl, rfl, rfl, rfl, by linarith [not_lt.mp hlt], rfl, hwm⟩

/-- The flush keeps the trace invariants: the chain and bound survive with
the (possibly advanced) start time as new bound. -/
theorem flush_inv (research : String → String → Bool) (st : WatcherState)
    (endT : Option ℚ) (tNow : ℚ) (ev : List ActivityEvent) (s : ℚ)
    (hs : st.current_start = some s) (hb : s ≤ flushBoundary endT tNow)
    (hchain : EvChain ev) (hbound : EvBound ev s) :
    ∃ s', (flushCurrentEvent research st endT tNow).1.current_start = some s' ∧
      s ≤ s' ∧ s' ≤ flushBoundary endT tNow ∧
      EvChain (ev ++ (flushCurrentEvent research st endT tNow).2.toList) ∧
      EvBound (ev ++ (flushCurrentEvent research st endT tNow).2.toList) s' := by
  rcases flush_cases research st endT tNow s hs hb with
    ⟨hnone, hst | hst⟩ | ⟨e, hsome, hst, hts, hend, hdur, _, _⟩
  · exact ⟨s, hst, le_refl s, hb, by simp [hnone, hchain],
      by simpa [hnone] using hbound⟩
  · exact ⟨flushBoundary endT tNow, hst, hb, le_refl _, by simp [hnone, hchain],
      by simpa [hnone] using evBound_mono hbound hb⟩
  · refine ⟨flushBoundary endT tNow, hst, hb, le_refl _, ?_, ?_⟩
    · simpa [hsome] using evChain_append hchain hbound (le_of_eq hts.symm)
    · simpa [hsome] using
        evBound_append (evBound_mono hbound hb) (le_of_eq hend)

/-- The return-from-idle step keeps the trace invariants. -/
theorem pollIdleReturn_inv (research : String → String → Bool) (st : WatcherState)
    (inp : TickInput) (t : ℚ) (ev : List ActivityEvent) (s : ℚ)
    (hs : st.current_start = some s) (hst : s ≤ t)
    (hchain : EvChain ev) (hbound : EvBound ev s) :
    ∃ s₂, (pollIdleReturn research st inp t).1.current_start = some s₂ ∧ s₂ ≤ t ∧
      (pollIdleReturn research st inp t).1.last_poll_time = st.last_poll_time ∧
      EvChain (ev ++ (pollIdleReturn research st inp t).2) ∧
      EvBound (ev ++ (pollIdleReturn research st inp t).2) s₂ := by
  unfold pollIdleReturn
  split
  · obtain ⟨o, ho⟩ :=
      flush_fst research { st with is_idle := idleFlag st inp } none t
    obtain ⟨s₂, hs₂, _, hs₂t, hch, hbd⟩ :=
      flush_inv research { st with is_idle := idleFlag st inp } none t
        ev s hs hst hchain hbound
    exact ⟨s₂, hs₂, hs₂t, by rw [ho], hch, hbd⟩
  · exact ⟨s, hs, hst, rfl, by simpa using hchain, by simpa using hbound⟩

/-- One `_poll` keeps the trace invariants: all flush boundaries inside the
poll are the tick time `t`, so the new start stays at or below `t` and the
trace stays chained and bounded. -/
theorem pollStep_inv (research : String → String → Bool) (st : WatcherState)
    (inp : TickInput) (t : ℚ) (ev : List ActivityEvent) (s : ℚ)
    (hs : st.current_start = some s) (hst : s ≤ t)
    (hchain : EvChain ev) (hbound : EvBound ev s) :
    ∃ s', (pollStep research st inp t).1.current_start = some s' ∧ s' ≤ t ∧
      (pollStep research st inp t).1.last_poll_time = st.last_poll_time ∧
      EvChain (ev ++ (pollStep research st inp t).2) ∧
      EvBound (ev ++ (pollStep research st inp t).2) s' := by
  obtain ⟨s₂, hs₂, hs₂t, hlp₂, hch₂, hbd₂⟩ :=
    pollIdleReturn_inv research st inp t ev s hs hst hchain hbound
  unfold pollStep
  split
  · -- paused
    split
    · -- was not paused: flush at t, then open the paused segment at t
      obtain ⟨o, ho⟩ := flush_fst research st none t
      obtain ⟨s', _, _, hs't, hch, hbd⟩ :=
        flush_inv research st none t ev s hs hst hchain hbound
      exact ⟨t, rfl, le_refl t, by rw [ho], hch, evBound_mono hbd hs't⟩
    · -- already paused: no-op
      exact ⟨s, hs, hst, rfl, by simpa using hchain, by simpa using hbound⟩
  · -- not paused
    split
    · -- just became idle: flush at t, open the idle segment at t
      obtain ⟨o, ho⟩ :=
        flush_fst research { st with is_idle := idleFlag st inp } none t
      obtain ⟨s', _, _, hs't, hch, hbd⟩ :=
        flush_inv research { st with is_idle := idleFlag st inp } none t
          ev s hs hst hchain hbound
      exact ⟨t, rfl, le_refl t, by rw [ho], hch, evBound_mono hbd hs't⟩
    · split
      · -- still idle: the idle-return state is returned as is
        exact ⟨s₂, hs₂, hs₂t, hlp₂, hch₂, hbd₂⟩
      · split
        · -- probe failed: no-op beyond the idle-return step
          exact ⟨s₂, hs₂, hs₂t, hlp₂, hch₂, hbd₂⟩
        · split
          · -- identity changed: flush the idle-return state at t, reopen at t
            obtain ⟨o, ho⟩ :=
              flush_fst research (pollIdleReturn research st inp t).1 none t
            obtain ⟨s₃, _, _, hs₃t, hch₃, hbd₃⟩ :=
              flush_inv research (pollIdleReturn research st inp t).1 none t
                (ev ++ (pollIdleReturn research st inp t).2) s₂ hs₂ hs₂t hch₂ hbd₂
            refine ⟨t, rfl, le_refl t, by rw [ho]; exact hlp₂, ?_, ?_⟩
            · rw [← List.append_assoc]; exact hch₃
            · rw [← List.append_assoc]; exact evBound_mono hbd₃ hs₃t
          · -- same identity: no-op beyond the idle-return step
            exact ⟨s₂, hs₂, hs₂t, hlp₂, hch₂, hbd₂⟩

/-- One loop iteration keeps the run invariant: the start never outruns the
tick time, `_last_poll_time` becomes the tick time, and the trace stays
chained and bounded by the start. -/
theorem tick_inv (research : String → String → Bool) (st : WatcherState)
    (inp : TickInput) (t : ℚ) (ev : List ActivityEvent) (s lp : ℚ)
    (hs : st.current_start = some s) (hlp : st.last_poll_time = some lp)
    (hslp : s ≤ lp) (hlt : lp ≤ t)
    (hchain : EvChain ev) (hbound : EvBound ev s) :
    ∃ s', (tick research st inp t).1.current_start = some s' ∧ s' ≤ t ∧
      (tick research st inp t).1.last_poll_time = some t ∧
      EvChain (ev ++ (tick research st inp t).2) ∧
      EvBound (ev ++ (tick research st inp t).2) s' := by
  unfold tick
  simp only [hlp]
  split
  · -- clock jump: flush at the last good tick time, restart at t, then poll
    obtain ⟨s₁, hs₁, _, hs₁lp, hch₁, hbd₁⟩ :=
      flush_inv research st (some lp) t ev s hs hslp hchain hbound
    have hbd₁' : EvBound (ev ++ (flushCurrentEvent research st (some lp) t).2.toList) t :=
      evBound_mono hbd₁ (le_trans hs₁lp hlt)
    obtain ⟨s', hs', hs't, _, hch₂, hbd₂⟩ :=
      pollStep_inv research (jumpState research st lp t) inp t
        (ev ++ (flushCurrentEvent research st (some lp) t).2.toList) t rfl (le_refl t)
        hch₁ hbd₁'
    refine ⟨s', hs', hs't, rfl, ?_, ?_⟩
    · rw [← List.append_assoc]; exact hch₂
    · rw [← List.append_assoc]; exact hbd₂
  · -- no jump: just poll
    obtain ⟨s', hs', hs't, _, hch₂, hbd₂⟩ :=
      pollStep_inv research st inp t ev s hs (le_trans hslp hlt) hchain hbound
    exact ⟨s', hs', hs't, rfl, hch₂, hbd₂⟩

/-- The run invariant, by induction over the tick list. -/
theorem runTicks_inv (research : String → String → Bool) :
    ∀ (ticks : List (TickInput × ℚ)) (st : WatcherState) (ev : List ActivityEvent)
      (s lp : ℚ), st.current_start = some s → st.last_poll_time = some lp → s ≤ lp →
      timesMonoB lp ticks = true → EvChain ev → EvBound ev s →
      ∃ s' lp', (runTicks research st ticks).1.current_start = some s' ∧
        (runTicks research st ticks).1.last_poll_time = some lp' ∧ s' ≤ lp' ∧
        EvChain (ev ++ (runTicks research st ticks).2) ∧
        EvBound (ev ++ (runTicks research st ticks).2) s'
  | [], st, ev, s, lp, hs, hlp, hslp, _, hchain, hbound =>
    ⟨s, lp, hs, hlp, hslp, by simpa [runTicks] using hchain,
      by simpa [runTicks] using hbound⟩
  | (inp, t) :: rest, st, ev, s, lp, hs, hlp, hslp, hmono, hchain, hbound => by
    simp only [timesMonoB, Bool.and_eq_true, decide_eq_true_eq] at hmono
    obtain ⟨hlt, hmono'⟩ := hmono
    obtain ⟨s₁, hs₁, hs₁t, hlp₁, hch₁, hbd₁⟩ :=
      tick_inv research st inp t ev s lp hs hlp hslp hlt hchain hbound
    obtain ⟨s', lp', hs', hlp', hs'lp', hch', hbd'⟩ :=
      runTicks_inv research rest (tick research st inp t).1
        (ev ++ (tick research st inp t).2) s₁ t hs₁ hlp₁ hs₁t hmono' hch₁ hbd₁
    refine ⟨s', lp', hs', hlp', hs'lp', ?_, ?_⟩
    · simpa [runTicks, List.append_assoc] using hch'
    · simpa [runTicks, List.append_assoc] using hbd'

/-- A flush whose boundary is less than one second past the segment start
persists nothing (covers the empty-class and sub-second branches alike). -/
theorem flush_subsecond_none (research : String → String → Bool) (st : WatcherState)
    (endT : Option ℚ) (tNow s : ℚ) (hs : st.current_start = some s)
    (hdur : flushBoundary endT tNow - s < 1) :
    (flushCurrentEvent research st endT tNow).2 = none := by
  unfold flushCurrentEvent
  rw [hs]
  simp only
  by_cases hwm : st.current_wm_class = ""
  · rw [if_pos hwm]
  · rw [if_neg hwm, if_pos hdur]

/-- After a flush, either the start has been advanced to the boundary, or the
state is entirely unchanged because the segment was sub-second. -/
theorem flush_boundary_or_unchanged (research : String → String → Bool)
    (st : WatcherState) (endT : Option ℚ) (tNow : ℚ) :
    (flushCurrentEvent research st endT tNow).1.current_start =
      some (flushBoundary endT tNow) ∨
    (flushCurrentEvent research st endT tNow = (st, none) ∧
      ∃ s, st.current_start = some s ∧ flushBoundary endT tNow - s < 1) := by
  unfold flushCurrentEvent
  cases hcs : st.current_start with
  | none => exact Or.inl rfl
  | some s =>
    simp only
    split
    · exact Or.inl rfl
    · split
      next hlt => exact Or.inr ⟨rfl, s, rfl, hlt⟩
      next hlt =>
        split
        · exact Or.inl rfl
        · exact Or.inl rfl

/-- An event persisted by a flush carries the open segment's identity, which
is necessarily non-empty. -/
theorem flush_event_wm (research : String → String → Bool) (st : WatcherState)
    (endT : Option ℚ) (tNow : ℚ) (e : ActivityEvent)
    (he : (flushCurrentEvent research st endT tNow).2 = some e) :
    e.wm_class = st.current_wm_class ∧ e.wm_class ≠ "" := by
  unfold flushCurrentEvent at he
  cases hcs : st.current_start with
  | none => rw [hcs] at he; exact absurd he (by simp)
  | some s =>
    rw [hcs] at he
    simp only at he
    by_cases hwm : st.current_wm_class = ""
    · rw [if_pos hwm] at he; exact absurd he (by simp)
    · rw [if_neg hwm] at he
      by_cases hlt : flushBoundary endT tNow - s < 1
      · rw [if_pos hlt] at he; exact absurd he (by simp)
      · rw [if_neg hlt] at he
        rcases hf : filterOutcome research st.filter_rules st.current_wm_class
            st.current_title with _ | ti
        · rw [hf] at he; exact absurd he (by simp)
        · rw [hf] at he
          injection he with h
          exact h ▸ ⟨rfl, hwm⟩

/-- Every event emitted by the idle-return step has a non-empty identity. -/
theorem pollIdleReturn_events_wm (research : String → String → Bool)
    (st : WatcherState) (inp : TickInput) (t : ℚ) (e : ActivityEvent)
    (he : e ∈ (pollIdleReturn research st inp t).2) : e.wm_class ≠ "" := by
  unfold pollIdleReturn at he
  split at he
  · rcases ho : (flushCurrentEvent research { st with is_idle := idleFlag st inp } none t).2 with
      _ | e'
    · rw [ho] at he; exact absurd he (by simp)
    · rw [ho] at he
      simp only [Option.toList_some, List.mem_singleton] at he
      exact he ▸ (flush_event_wm research _ none t e' ho).2
  · exact absurd he (by simp)

/-- Every event emitted by one `_poll` has a non-empty identity. -/
theorem pollStep_events_wm (research : String → String → Bool)
    (st : WatcherState) (inp : TickInput) (t : ℚ) (e : ActivityEvent)
    (he : e ∈ (pollStep research st inp t).2) : e.wm_class ≠ "" := by
  unfold pollStep at he
  split at he
  · split at he
    · rcases ho : (flushCurrentEvent research st none t).2 with _ | e'
      · rw [ho] at he; exact absurd he (by simp)
      · rw [ho] at he
        simp only [Option.toList_some, List.mem_singleton] at he
        exact he ▸ (flush_event_wm research st none t e' ho).2
    · exact absurd he (by simp)
  · split at he
    · rcases ho : (flushCurrentEvent research
          { st with is_idle := idleFlag st inp } none t).2 with _ | e'
      · rw [ho] at he; exact absurd he (by simp)
      · rw [ho] at he
        simp only [Option.toList_some, List.mem_singleton] at he
        exact he ▸ (flush_event_wm research _ none t e' ho).2
    · split at he
      · exact pollIdleReturn_events_wm research st inp t e he
      · split at he
        · exact pollIdleReturn_events_wm research st inp t e he
        · split at he
          · rcases List.mem_append.mp he with h | h
            · exact pollIdleReturn_events_wm research st inp t e h
            · rcases ho : (flushCurrentEvent research
                  (pollIdleReturn research st inp t).1 none t).2 with _ | e'
              · rw [ho] at h; exact absurd h (by simp)
              · rw [ho] at h
                simp only [Option.toList_some, List.mem_singleton] at h
                exact h ▸ (flush_event_wm research _ none t e' ho).2
          · exact pollIdleReturn_events_wm research st inp t e he

/-- Every event emitted by one loop iteration has a non-empty identity. -/
theorem tick_events_wm (research : String → String → Bool)
    (st : WatcherState) (inp : TickInput) (t : ℚ) (e : ActivityEvent)
    (he : e ∈ (tick research st inp t).2) : e.wm_class ≠ "" := by
  unfold tick at he
  cases hlp : st.last_poll_time with
  | none =>
    simp only [hlp] at he
    exact pollStep_events_wm research st inp t e he
  | some lp =>
    simp only [hlp] at he
    by_cases hj : st.poll_interval * 4 < t - lp
    · rw [if_pos hj] at he
      rcases List.mem_append.mp he with h | h
      · rcases ho : (flushCurrentEvent research st (some lp) t).2 with _ | e'
        · rw [ho] at h; exact absurd h (by simp)
        · rw [ho] at h
          simp only [Option.toList_some, List.mem_singleton] at h
          exact h ▸ (flush_event_wm research st (some lp) t e' ho).2
      · exact pollStep_events_wm research _ inp t e h
    · rw [if_neg hj] at he
      exact pollStep_events_wm research st inp t e he

/-- Every event in any run of the watcher has a non-empty identity. -/
theorem runTicks_events_wm (research : String → String → Bool) :
    ∀ (ticks : List (TickInput × ℚ)) (st : WatcherState) (e : ActivityEvent),
      e ∈ (runTicks research st ticks).2 → e.wm_class ≠ ""
  | [], _, e, he => absurd he (by simp [runTicks])
  | (inp, t) :: rest, st, e, he => by
    rw [runTicks] at he
    rcases List.mem_append.mp he with h | h
    · exact tick_events_wm research st inp t e h
    · exact runTicks_events_wm research rest (tick research st inp t).1 e h

/-! ### Concrete fixtures used by witnesses and counterexamples -/

/-- A tick sampling window `A`, not paused, not idle. -/
def tickInputA : TickInput :=
  { paused := false, idle_ms := 0,
    win_info := some { wm_class := "A", title := "doc", pid := 7 } }

/-- A tick sampling window `B`, not paused, not idle. -/
def tickInputB : TickInput :=
  { paused := false, idle_ms := 0,
    win_info := some { wm_class := "B", title := "x", pid := 3 } }

/-- A watcher state with an open segment for `A` started at time `0`,
with no filter rules. -/
def openSegState : WatcherState :=
  { current_wm_class := "A", current_title := "doc", current_pid := 7,
    current_start := some 0, last_poll_time := some 0, is_idle := false,
    filter_rules := [], poll_interval := 5, idle_threshold := 120000 }

/-- The filter rule `{ignore, app="X"}` of the claims. -/
def ruleIgnoreX : FilterRule :=
  { rule_type := "ignore", wm_class_pattern := "X", title_pattern := "" }

/-- The filter rule `{redact, title=".*"}` of the claims. -/
def ruleRedactAll : FilterRule :=
  { rule_type := "redact", wm_class_pattern := "", title_pattern := ".*" }

/-- A state holding an open segment with identity `X`, rule list
`[{redact, title=".*"}, {ignore, app="X"}]`. -/
def stRedactFirst : WatcherState :=
  { openSegState with
      current_wm_class := "X"
      current_title := "secret"
      filter_rules := [ruleRedactAll, ruleIgnoreX] }

/-- A state holding an open segment with identity `X`, rule list
`[{ignore, app="X"}, {redact, title=".*"}]` (the claim's example). -/
def stIgnoreFirst : WatcherState :=
  { openSegState with
      current_wm_class := "X"
      current_title := "secret"
      filter_rules := [ruleIgnoreX, ruleRedactAll] }

/-! ### Claims -/

/-- C1.  For every two events persisted by the segmentation watcher over any
run with monotone tick times, the events do not overlap: either
`A.end_time ≤ B.start_time` or `B.end_time ≤ A.start_time`; moreover the
open segment's start time always sits at or after every persisted event's
end (each new segment starts at or after the previous close boundary). -/
theorem c1_events_no_overlap (research : String → String → Bool)
    (rules : List FilterRule) (pI iT t0 : ℚ) (ticks : List (TickInput × ℚ))
    (hmono : timesMonoB t0 ticks = true) :
    (∀ A ∈ (runTicks research (initState rules pI iT t0) ticks).2,
      ∀ B ∈ (runTicks research (initState rules pI iT t0) ticks).2,
        A ≠ B → A.end_timestamp ≤ B.timestamp ∨ B.end_timestamp ≤ A.timestamp) ∧
    (∀ s, (runTicks research (initState rules pI iT t0) ticks).1.current_start = some s →
      ∀ e ∈ (runTicks research (initState rules pI iT t0) ticks).2,
        e.end_timestamp ≤ s) := by
  obtain ⟨s', lp', hs', hlp', hs'lp', hch, hbd⟩ :=
    runTicks_inv research ticks (initState rules pI iT t0) [] t0 t0 rfl rfl
      (le_refl t0) hmono List.Pairwise.nil (fun e he => absurd he (List.not_mem_nil e))
  rw [List.nil_append] at hch hbd
  constructor
  · have hch' : List.Pairwise
        (fun A B : ActivityEvent => A.end_timestamp ≤ B.timestamp)
        (runTicks research (initState rules pI iT t0) ticks).2 := hch
    have hsym : Symmetric (fun A B : ActivityEvent =>
        A.end_timestamp ≤ B.timestamp ∨ B.end_timestamp ≤ A.timestamp) :=
      fun _ _ h => h.symm
    have hp := List.Pairwise.forall hsym (hch'.imp fun h => Or.inl h)
    exact fun A hA B hB hne => hp hA hB hne
  · intro s hss e he
    rw [hs'] at hss
    injection hss with h
    exact h ▸ hbd e he

/-- Closed witness for C1 on a concrete two-tick run. -/
theorem c1_events_no_overlap_witness :
    timesMonoB 0 [(tickInputA, 0), (tickInputB, 10)] = true ∧
    ((∀ A ∈ (runTicks pyRegexLit (initState [] 5 120000 0)
        [(tickInputA, 0), (tickInputB, 10)]).2,
      ∀ B ∈ (runTicks pyRegexLit (initState [] 5 120000 0)
        [(tickInputA, 0), (tickInputB, 10)]).2,
        A ≠ B → A.end_timestamp ≤ B.timestamp ∨ B.end_timestamp ≤ A.timestamp) ∧
    (∀ s, (runTicks pyRegexLit (initState [] 5 120000 0)
        [(tickInputA, 0), (tickInputB, 10)]).1.current_start = some s →
      ∀ e ∈ (runTicks pyRegexLit (initState [] 5 120000 0)
        [(tickInputA, 0), (tickInputB, 10)]).2, e.end_timestamp ≤ s)) :=
  ⟨by with_unfolding_all decide,
   c1_events_no_overlap pyRegexLit [] 5 120000 0 [(tickInputA, 0), (tickInputB, 10)]
     (by with_unfolding_all decide)⟩

/-- C6.  For every segment closed by the flush operation, if the computed
duration (close boundary minus segment start time) is less than one second,
no event is persisted. -/
theorem c6_subsecond_suppression (research : String → String → Bool)
    (st : WatcherState) (endT : Option ℚ) (tNow s : ℚ)
    (hs : st.current_start = some s)
    (hdur : flushBoundary endT tNow - s < 1) :
    (flushCurrentEvent research st endT tNow).2 = none :=
  flush_subsecond_none research st endT tNow s hs hdur

/-- Closed witness for C6: flushing a half-second-old segment persists
nothing. -/
theorem c6_subsecond_suppression_witness :
    openSegState.current_start = some 0 ∧ flushBoundary none (1/2) - 0 < 1 ∧
    (flushCurrentEvent pyRegexLit openSegState none (1/2)).2 = none :=
  ⟨rfl, by with_unfolding_all decide,
   c6_subsecond_suppression pyRegexLit openSegState none (1/2) 0 rfl
     (by with_unfolding_all decide)⟩

/-- C7 counterexample.  The claim says a sub-second discard still advances
the open segment's start time to the close boundary; in the source the
`duration < 1` branch returns without touching `_current_start`, so after
flushing the segment opened at `0` with boundary `1/2` the start is still
`0`, not `1/2`. -/
theorem c7_counterexample :
    (flushCurrentEvent pyRegexLit openSegState none (1/2)).1.current_start = some 0 ∧
    (flushCurrentEvent pyRegexLit openSegState none (1/2)).1.current_start ≠
      some (flushBoundary none (1/2)) := by
  with_unfolding_all decide

/-- C7 (amended).  When the flush discards a segment because its computed
duration is below one second, it leaves the state entirely unchanged — in
particular the open segment's start time is *not* advanced to the close
boundary (the tick transitions that follow a flush reset the start
themselves). -/
theorem c7_subsecond_keeps_state (research : String → String → Bool)
    (st : WatcherState) (endT : Option ℚ) (tNow s : ℚ)
    (hs : st.current_start = some s) (hwm : st.current_wm_class ≠ "")
    (hdur : flushBoundary endT tNow - s < 1) :
    flushCurrentEvent research st endT tNow = (st, none) := by
  unfold flushCurrentEvent
  rw [hs]
  simp only
  rw [if_neg hwm, if_pos hdur]

/-- Closed witness for the amended C7. -/
theorem c7_subsecond_keeps_state_witness :
    openSegState.current_start = some 0 ∧ openSegState.current_wm_class ≠ "" ∧
    flushBoundary none (1/2) - 0 < 1 ∧
    flushCurrentEvent pyRegexLit openSegState none (1/2) = (openSegState, none) :=
  ⟨rfl, by decide, by with_unfolding_all decide,
   c7_subsecond_keeps_state pyRegexLit openSegState none (1/2) 0 rfl (by decide)
     (by with_unfolding_all decide)⟩

/-- C8.  Closing the machine twice in a row (no ticks in between) yields at
most one event from the single open segment: a re-close at the same instant
persists nothing, and even if the first close persisted an event, a second
close less than one second later still persists nothing. -/
theorem c8_idempotent_reclose (research : String → String → Bool)
    (st : WatcherState) (t : ℚ) :
    ((flushCurrentEvent research (flushCurrentEvent research st none t).1 none t).2
        = none) ∧
    (∀ (t' : ℚ) (e : ActivityEvent), (flushCurrentEvent research st none t).2 = some e →
      t' - t < 1 →
      (flushCurrentEvent research (flushCurrentEvent research st none t).1 none t').2
        = none) := by
  constructor
  · rcases flush_boundary_or_unchanged research st none t with h | ⟨heq, s, hcs, hlt⟩
    · exact flush_subsecond_none research _ none t t h (by simp [flushBoundary])
    · rw [heq]
      exact flush_subsecond_none research st none t s hcs hlt
  · intro t' e hsome hlt
    rcases flush_boundary_or_unchanged research st none t with h | ⟨heq, _, _, _⟩
    · exact flush_subsecond_none research _ none t' t h hlt
    · rw [heq] at hsome
      exact absurd hsome (by simp)

/-- Closed witness for C8: after a close at `t = 10` persisting the event
for the segment opened at `0`, a re-close at `10.5` persists nothing. -/
theorem c8_idempotent_reclose_witness :
    ((flushCurrentEvent pyRegexLit openSegState none 10).2 =
      some { timestamp := 0, end_timestamp := 10, wm_class := "A", title := "doc",
             pid := 7, duration_secs := 10, is_idle := false }) ∧
    ((21/2 : ℚ) - 10 < 1) ∧
    ((flushCurrentEvent pyRegexLit
        (flushCurrentEvent pyRegexLit openSegState none 10).1 none (21/2)).2 = none) :=
  ⟨by with_unfolding_all decide, by with_unfolding_all decide,
   (c8_idempotent_reclose pyRegexLit openSegState 10).2 (21/2)
     { timestamp := 0, end_timestamp := 10, wm_class := "A", title := "doc",
       pid := 7, duration_secs := 10, is_idle := false }
     (by with_unfolding_all decide) (by with_unfolding_all decide)⟩

/-- C10.  The flush never persists an event whose app identity is the empty
string: with an empty identity (the startup state) the flush only resets the
segment start and writes nothing, and every event any watcher run persists
has a non-empty `wm_class`. -/
theorem c10_no_empty_identity (research : String → String → Bool) :
    (∀ (st : WatcherState) (endT : Option ℚ) (tNow : ℚ),
      st.current_wm_class = "" →
      flushCurrentEvent research st endT tNow =
        ({ st with current_start := some (flushBoundary endT tNow) }, none)) ∧
    (∀ (st : WatcherState) (ticks : List (TickInput × ℚ)) (e : ActivityEvent),
      e ∈ (runTicks research st ticks).2 → e.wm_class ≠ "") := by
  constructor
  · intro st endT tNow hwm
    unfold flushCurrentEvent
    cases hcs : st.current_start with
    | none => rfl
    | some s => simp only; rw [if_pos hwm]
  · intro st ticks e he
    exact runTicks_events_wm research ticks st e he

/-- Closed witness for C10: the empty-identity flush at startup writes
nothing, and the event persisted by a concrete run has identity `"A"`. -/
theorem c10_no_empty_identity_witness :
    ((initState [] 5 120000 0).current_wm_class = "") ∧
    (flushCurrentEvent pyRegexLit (initState [] 5 120000 0) none 3 =
      ({ initState [] 5 120000 0 with current_start := some 3 }, none)) ∧
    ({ timestamp := 0, end_timestamp := 10, wm_class := "A", title := "doc",
       pid := 7, duration_secs := 10, is_idle := false } ∈
      (runTicks pyRegexLit (initState [] 5 120000 0)
        [(tickInputA, 0), (tickInputB, 10)]).2) ∧
    ("A" : String) ≠ "" :=
  ⟨rfl,
   (c10_no_empty_identity pyRegexLit).1 (initState [] 5 120000 0) none 3 rfl,
   by with_unfolding_all decide,
   (c10_no_empty_identity pyRegexLit).2 (initState [] 5 120000 0)
     [(tickInputA, 0), (tickInputB, 10)]
     { timestamp := 0, end_timestamp := 10, wm_class := "A", title := "doc",
       pid := 7, duration_secs := 10, is_idle := false }
     (by with_unfolding_all decide)⟩

/-- C2 counterexample.  The claim says the first rule that matches
determines the outcome and no later rule can change it.  With rule list
`[{redact, title=".*"}, {ignore, app="X"}]` and a segment with identity
`"X"`, the first matching rule is the redact — so the claim predicts the
segment persists with title `"[Redacted]"` — but the source keeps scanning
after a redact, and the later ignore rule discards the segment entirely. -/
theorem c2_counterexample :
    ruleMatches pyRegexLit ruleRedactAll "X" "secret" = true ∧
    (flushCurrentEvent pyRegexLit stRedactFirst none 10).2 = none ∧
    (flushCurrentEvent pyRegexLit stRedactFirst none 10).2 ≠
      some { timestamp := 0, end_timestamp := 10, wm_class := "X",
             title := "[Redacted]", pid := 7, duration_secs := 10,
             is_idle := false } := by
  with_unfolding_all decide

/-- C2 (amended).  The filter rules are evaluated in stored order; the first
matching `ignore` rule discards the segment at once (no later rule is
consulted), while a matching `redact` rule replaces the working title with
the placeholder and evaluation *continues* over the remaining rules against
the redacted title — so a later ignore rule can still discard a redacted
segment.  In particular, for rule list `[{ignore, app="X"},
{redact, title=".*"}]` and a segment with identity `"X"`, the segment is
discarded entirely, with the start advanced to the close boundary. -/
theorem c2_filter_first_match (research : String → String → Bool) :
    (∀ (pre : List FilterRule) (rule : FilterRule) (rest : List FilterRule)
       (wm title : String),
      (∀ r ∈ pre, ruleMatches research r wm title = false) →
      ruleMatches research rule wm title = true → rule.rule_type = "ignore" →
      runFilterRules research (pre ++ rule :: rest) wm title = none) ∧
    (∀ (pre : List FilterRule) (rule : FilterRule) (rest : List FilterRule)
       (wm title : String),
      (∀ r ∈ pre, ruleMatches research r wm title = false) →
      ruleMatches research rule wm title = true → rule.rule_type = "redact" →
      runFilterRules research (pre ++ rule :: rest) wm title =
        runFilterRules research rest wm "[Redacted]") ∧
    (research "X" "X" = true →
      (flushCurrentEvent research stIgnoreFirst none 10).2 = none ∧
      (flushCurrentEvent research stIgnoreFirst none 10).1.current_start = some 10) := by
  refine ⟨?_, ?_, ?_⟩
  · intro pre
    induction pre with
    | nil =>
      intro rule rest wm title _ hm htype
      unfold runFilterRules
      rw [List.nil_append]
      simp only [runFilterRules]
      rw [if_pos hm, if_pos htype]
    | cons r pre ih =>
      intro rule rest wm title hpre hm htype
      have hr : ruleMatches research r wm title = false :=
        hpre r (List.mem_cons_self r pre)
      rw [List.cons_append]
      simp only [runFilterRules]
      rw [if_neg (by simp [hr])]
      exact ih rule rest wm title (fun r' hr' => hpre r' (List.mem_cons_of_mem r hr'))
        hm htype
  · intro pre
    induction pre with
    | nil =>
      intro rule rest wm title _ hm htype
      rw [List.nil_append]
      simp only [runFilterRules]
      rw [if_pos hm, if_neg (by rw [htype]; decide), if_pos htype]
    | cons r pre ih =>
      intro rule rest wm title hpre hm htype
      have hr : ruleMatches research r wm title = false :=
        hpre r (List.mem_cons_self r pre)
      rw [List.cons_append]
      simp only [runFilterRules]
      rw [if_neg (by simp [hr])]
      exact ih rule rest wm title (fun r' hr' => hpre r' (List.mem_cons_of_mem r hr'))
        hm htype
  · intro hX
    have hm : ruleMatches research ruleIgnoreX "X" "secret" = true := by
      simp [ruleMatches, ruleIgnoreX, hX]
    have hfo : filterOutcome research [ruleIgnoreX, ruleRedactAll] "X" "secret" = none := by
      unfold filterOutcome
      rw [if_neg (by decide)]
      simp only [runFilterRules]
      rw [if_pos hm, if_pos (show ruleIgnoreX.rule_type = "ignore" from rfl)]
    have hflush : flushCurrentEvent research stIgnoreFirst none 10 =
        ({ stIgnoreFirst with current_start := some 10 }, none) := by
      unfold flushCurrentEvent
      have hs : stIgnoreFirst.current_start = some 0 := rfl
      rw [hs]
      simp only
      rw [if_neg (by decide), if_neg (by norm_num [flushBoundary])]
      have : filterOutcome research stIgnoreFirst.filter_rules
          stIgnoreFirst.current_wm_class stIgnoreFirst.current_title = none := hfo
      rw [this]
      rfl
    rw [hflush]
    exact ⟨rfl, rfl⟩

/-- Closed witness for the amended C2, instantiating the regex engine. -/
theorem c2_filter_first_match_witness :
    ruleMatches pyRegexLit ruleIgnoreX "X" "secret" = true ∧
    ruleIgnoreX.rule_type = "ignore" ∧
    runFilterRules pyRegexLit ([] ++ ruleIgnoreX :: [ruleRedactAll]) "X" "secret" = none ∧
    pyRegexLit "X" "X" = true ∧
    (flushCurrentEvent pyRegexLit stIgnoreFirst none 10).2 = none ∧
    (flushCurrentEvent pyRegexLit stIgnoreFirst none 10).1.current_start = some 10 :=
  ⟨by with_unfolding_all decide, rfl,
   (c2_filter_first_match pyRegexLit).1 [] ruleIgnoreX [ruleRedactAll] "X" "secret"
     (by simp) (by with_unfolding_all decide) rfl,
   by with_unfolding_all decide,
   ((c2_filter_first_match pyRegexLit).2.2 (by with_unfolding_all decide)).1,
   ((c2_filter_first_match pyRegexLit).2.2 (by with_unfolding_all decide)).2⟩

/-- C4 counterexample.  With ticks only at `t = 0` (identity `A`) and
`t = 5 × poll_interval = 25`, the last good tick time is `0`, so the segment
closed by the jump handler covers `[0, 0]`: it is sub-second and the flush
discards it.  The machine therefore emits *no* closed event — not exactly
one as the claim states (the open segment is still restarted at the jump
tick with the same identity). -/
theorem c4_counterexample :
    (runTicks pyRegexLit (initState [] 5 120000 0)
      [(tickInputA, 0), (tickInputA, 25)]).2 = [] ∧
    (runTicks pyRegexLit (initState [] 5 120000 0)
      [(tickInputA, 0), (tickInputA, 25)]).2.length ≠ 1 ∧
    (runTicks pyRegexLit (initState [] 5 120000 0)
      [(tickInputA, 0), (tickInputA, 25)]).1.current_start = some 25 ∧
    (runTicks pyRegexLit (initState [] 5 120000 0)
      [(tickInputA, 0), (tickInputA, 25)]).1.current_wm_class = "A" := by
  with_unfolding_all decide

/-- C4 (amended).  When a tick at time `t` sees a clock jump (more than four
poll intervals since the last good tick `lp`) while an open non-sentinel,
unfiltered segment with identity `A` has been running since `s`, and the
tick itself samples the same identity with the idle state unchanged, then
the machine emits exactly one closed event covering `[s, lp]` — its end time
is the last good tick time, **provided** `lp - s ≥ 1` (otherwise the
sub-second rule discards it, as the counterexample shows) — and opens a
fresh segment at the jump tick `t` with the same identity.  No event spans
the gap. -/
theorem c4_clock_jump_split (research : String → String → Bool)
    (st : WatcherState) (inp : TickInput) (t s lp : ℚ) (w : WinInfo)
    (hwm : st.current_wm_class = w.wm_class) (hti : st.current_title = w.title)
    (hne : w.wm_class ≠ "") (hni : w.wm_class ≠ "__idle__")
    (hnp : w.wm_class ≠ "__paused__") (hrules : st.filter_rules = [])
    (hs : st.current_start = some s) (hlp : st.last_poll_time = some lp)
    (hjump : st.poll_interval * 4 < t - lp) (hdur : 1 ≤ lp - s)
    (hpaused : inp.paused = false) (hidle : inp.idle_ms ≤ st.idle_threshold)
    (hwi : st.is_idle = false) (hwin : inp.win_info = some w) :
    tick research st inp t =
      ({ st with current_start := some t, last_poll_time := some t },
       [{ timestamp := s, end_timestamp := lp, wm_class := w.wm_class,
          title := w.title, pid := st.current_pid,
          duration_secs := round1 (lp - s), is_idle := false }]) := by
  obtain ⟨wm, ti, pid, cs, lpt, ii, fr, pI, iT⟩ := st
  simp only at hwm hti hrules hs hlp hjump hidle hwi
  subst hwm hti hrules hs hlp hwi
  have hflush : flushCurrentEvent research
      ⟨w.wm_class, w.title, pid, some s, some lp, false, [], pI, iT⟩ (some lp) t =
      (⟨w.wm_class, w.title, pid, some lp, some lp, false, [], pI, iT⟩,
       some ⟨s, lp, w.wm_class, w.title, pid, round1 (lp - s), false⟩) := by
    unfold flushCurrentEvent
    simp only
    rw [if_neg hne, if_neg (show ¬(flushBoundary (some lp) t - s < 1) from
      not_lt.mpr (by simpa [flushBoundary] using hdur))]
    have hfo : filterOutcome research [] w.wm_class w.title = some w.title := by
      unfold filterOutcome
      rw [if_neg (by simp [hni, hnp])]
      rfl
    rw [hfo]
    simp only [flushBoundary, Option.getD_some]
    rw [show (w.wm_class == "__idle__") = false from beq_eq_false_iff_ne.mpr hni]
  have hif : ∀ cs' : Option ℚ, idleFlag
      ⟨w.wm_class, w.title, pid, cs', some lp, false, [], pI, iT⟩ inp = false := by
    intro cs'
    simp only [idleFlag]
    exact decide_eq_false (not_lt.mpr hidle)
  have hpir : pollIdleReturn research
      ⟨w.wm_class, w.title, pid, some t, some lp, false, [], pI, iT⟩ inp t =
      (⟨w.wm_class, w.title, pid, some t, some lp, false, [], pI, iT⟩, []) := by
    unfold pollIdleReturn
    rw [if_neg (by simp)]
    rw [hif (some t)]
  have hpoll : pollStep research
      ⟨w.wm_class, w.title, pid, some t, some lp, false, [], pI, iT⟩ inp t =
      (⟨w.wm_class, w.title, pid, some t, some lp, false, [], pI, iT⟩, []) := by
    unfold pollStep
    rw [if_neg (by simp [hpaused])]
    rw [hif (some t)]
    rw [if_neg (by simp)]
    rw [if_neg Bool.false_ne_true]
    simp only [hwin]
    rw [hpir]
    rw [if_neg (by simp)]
  have hjs : jumpState research
      ⟨w.wm_class, w.title, pid, some s, some lp, false, [], pI, iT⟩ lp t =
      ⟨w.wm_class, w.title, pid, some t, some lp, false, [], pI, iT⟩ := by
    unfold jumpState
    rw [hflush]
  unfold tick
  simp only
  rw [if_pos hjump, hjs, hflush, hpoll]
  rfl

/-- The watcher state of the C4 witness: segment `A` open since `0`, last
good tick at `10`. -/
def jumpStartState : WatcherState := { openSegState with last_poll_time := some 10 }

/-- Closed witness for the amended C4: segment open since `0`, last good tick
at `10`, jump tick at `50`; one event `[0, 10]` is emitted and the open
segment restarts at `50` with the same identity. -/
theorem c4_clock_jump_split_witness :
    jumpStartState.poll_interval * 4 < (50:ℚ) - 10 ∧
    (1:ℚ) ≤ 10 - 0 ∧
    tick pyRegexLit jumpStartState tickInputA 50 =
      ({ openSegState with current_start := some 50, last_poll_time := some 50 },
       [{ timestamp := 0, end_timestamp := 10, wm_class := "A", title := "doc",
          pid := 7, duration_secs := round1 (10 - 0), is_idle := false }]) :=
  ⟨by with_unfolding_all decide, by with_unfolding_all decide,
   c4_clock_jump_split pyRegexLit jumpStartState tickInputA 50 0 10
     ⟨"A", "doc", 7⟩ rfl rfl (by decide) (by decide) (by decide) rfl rfl rfl
     (by with_unfolding_all decide) (by with_unfolding_all decide)
     rfl (by with_unfolding_all decide) rfl rfl⟩

/-- The first pass is exactly "first category whose non-empty title pattern
matches the title". -/
theorem passTitle_eq_find (scs sci : String → String → Bool) (title : String) :
    ∀ cats : List Category,
      passTitle scs sci title cats = cats.find? (titleTest scs sci title)
  | [] => rfl
  | cat :: rest => by
    unfold passTitle
    by_cases h : titleTest scs sci title cat
    · rw [if_pos h, List.find?_cons_of_pos _ h]
    · rw [if_neg h, List.find?_cons_of_neg _ (by simpa using h)]
      exact passTitle_eq_find scs sci title rest

/-- The second pass is exactly "first category whose non-empty app pattern
matches the app identity". -/
theorem passClass_eq_find (scs sci : String → String → Bool) (wm : String) :
    ∀ cats : List Category,
      passClass scs sci wm cats = cats.find? (classTest scs sci wm)
  | [] => rfl
  | cat :: rest => by
    unfold passClass
    by_cases h : classTest scs sci wm cat
    · rw [if_pos h, List.find?_cons_of_pos _ h]
    · rw [if_neg h, List.find?_cons_of_neg _ (by simpa using h)]
      exact passClass_eq_find scs sci wm rest

/-- The `Media` category of the claim (`title_pattern = "YouTube"`). -/
def mediaCat : Category :=
  { name := "Media", wm_class_pattern := "", title_pattern := "YouTube",
    is_case_sensitive := false, color := "#ec4899" }

/-- The `Browser` category of the claim (`app_pattern = "firefox"`). -/
def browserCat : Category :=
  { name := "Browser", wm_class_pattern := "firefox", title_pattern := "",
    is_case_sensitive := false, color := "#3b82f6" }

/-- C3.  Category matching makes two passes over the category list: pass 1
returns the first category whose non-empty title pattern matches the title
(case-sensitive or not, per the category flag); pass 2, only when pass 1
found nothing, returns the first category whose non-empty app pattern
matches the app identity; otherwise the synthetic "Uncategorized" category
with the fixed default color `#64748b` is returned.  In particular, with
categories Media `{title_pattern "YouTube"}` and Browser
`{app_pattern "firefox"}` in either order, app identity `"firefox"` and
title `"YouTube - foo"` classify as Media. -/
theorem c3_category_two_pass (scs sci : String → String → Bool) :
    (∀ (wm title : String) (cats : List Category),
      getMatchedCategory scs sci wm title cats =
        match cats.find? (titleTest scs sci title) with
        | some cat => cat
        | none => (cats.find? (classTest scs sci wm)).getD uncategorized) ∧
    (uncategorized.name = "Uncategorized" ∧ uncategorized.color = "#64748b") ∧
    (sci "YouTube" ("YouTube - foo".toLower) = true →
      (getMatchedCategory scs sci "firefox" "YouTube - foo"
          [mediaCat, browserCat]).name = "Media" ∧
      (getMatchedCategory scs sci "firefox" "YouTube - foo"
          [browserCat, mediaCat]).name = "Media") := by
  refine ⟨?_, ⟨rfl, rfl⟩, ?_⟩
  · intro wm title cats
    unfold getMatchedCategory
    rw [passTitle_eq_find, passClass_eq_find]
    rcases cats.find? (titleTest scs sci title) with _ | cat
    · rcases cats.find? (classTest scs sci wm) with _ | cat <;> rfl
    · rfl
  · intro h
    constructor
    · unfold getMatchedCategory passTitle
      rw [if_pos (show titleTest scs sci "YouTube - foo" mediaCat = true by
        simp [titleTest, mediaCat, h])]
      rfl
    · unfold getMatchedCategory passTitle
      rw [if_neg (show ¬titleTest scs sci "YouTube - foo" browserCat = true by
        simp [titleTest, browserCat])]
      unfold passTitle
      rw [if_pos (show titleTest scs sci "YouTube - foo" mediaCat = true by
        simp [titleTest, mediaCat, h])]
      rfl

/-- Closed witness for C3, instantiating the regex engine with literal
substring search. -/
theorem c3_category_two_pass_witness :
    pyRegexLit "YouTube" ("YouTube - foo".toLower) = true ∧
    (getMatchedCategory searchLit pyRegexLit "firefox" "YouTube - foo"
        [mediaCat, browserCat]).name = "Media" ∧
    (getMatchedCategory searchLit pyRegexLit "firefox" "YouTube - foo"
        [browserCat, mediaCat]).name = "Media" :=
  ⟨by with_unfolding_all decide,
   ((c3_category_two_pass searchLit pyRegexLit).2.2
     (by with_unfolding_all decide)).1,
   ((c3_category_two_pass searchLit pyRegexLit).2.2
     (by with_unfolding_all decide)).2⟩

/-- The blend loop leaves a list without a matching key untouched and
reports `found = false`. -/
theorem blendLoop_no_match (c : CurrentState) (dur now : ℚ) :
    ∀ rows : List SummaryRow, (∀ r ∈ rows, rowKeyMatches r c = false) →
      blendLoop c dur now rows = (rows, false)
  | [], _ => rfl
  | r :: rest, h => by
    unfold blendLoop
    rw [if_neg (by simp [h r (List.mem_cons_self r rest)])]
    rw [blendLoop_no_match c dur now rest
      (fun r' hr' => h r' (List.mem_cons_of_mem r hr'))]

/-- The blend loop updates exactly the first row with a matching key. -/
theorem blendLoop_match (c : CurrentState) (dur now : ℚ) :
    ∀ (pre : List SummaryRow) (r : SummaryRow) (post : List SummaryRow),
      (∀ r' ∈ pre, rowKeyMatches r' c = false) → rowKeyMatches r c = true →
      blendLoop c dur now (pre ++ r :: post) =
        (pre ++ { r with total_secs := r.total_secs + dur,
                         event_count := r.event_count + 1,
                         last_seen := now } :: post, true)
  | [], r, post, _, hr => by
    rw [List.nil_append]
    unfold blendLoop
    rw [if_pos hr]
    rfl
  | p :: pre, r, post, hpre, hr => by
    rw [List.cons_append]
    unfold blendLoop
    rw [if_neg (by simp [hpre p (List.mem_cons_self p pre)])]
    rw [blendLoop_match c dur now pre r post
      (fun r' hr' => hpre r' (List.mem_cons_of_mem p hr')) hr]
    rfl

/-- C5.  For the "today" per-app summary, when the open segment is non-idle
with a non-empty, non-reserved identity: if its `(wm_class, title)` key
matches a persisted group, that group's `total_secs` becomes
`persisted_total + (now - open_segment.start_time)`, its event count grows
by one and its last-seen time becomes `now`; if no group matches, a fresh
synthetic group is appended instead; and in both cases the whole result list
is (re-)sorted descending by `total_secs`. -/
theorem c5_live_blend (c : CurrentState) (now : ℚ)
    (hidle : c.is_idle = false) (hne : c.wm_class ≠ "")
    (hres : c.wm_class ≠ "__idle__") :
    (∀ (pre : List SummaryRow) (r : SummaryRow) (post : List SummaryRow),
      (∀ r' ∈ pre, rowKeyMatches r' c = false) → rowKeyMatches r c = true →
      blendCurrent (pre ++ r :: post) (some c) now =
        sortRowsDesc (pre ++ { r with
          total_secs := r.total_secs + (now - c.timestamp),
          event_count := r.event_count + 1,
          last_seen := now } :: post)) ∧
    (∀ rows : List SummaryRow, (∀ r' ∈ rows, rowKeyMatches r' c = false) →
      blendCurrent rows (some c) now =
        sortRowsDesc (rows ++ [freshRow c (now - c.timestamp) now])) ∧
    (∀ rows : List SummaryRow,
      List.Sorted rowsDescRel (blendCurrent rows (some c) now)) := by
  have hcond : c.is_idle = false ∧ c.wm_class ≠ "" ∧ c.wm_class ≠ "__idle__" :=
    ⟨hidle, hne, hres⟩
  refine ⟨?_, ?_, ?_⟩
  · intro pre r post hpre hr
    simp only [blendCurrent]
    rw [if_pos hcond, blendLoop_match c (now - c.timestamp) now pre r post hpre hr]
    rfl
  · intro rows hrows
    simp only [blendCurrent]
    rw [if_pos hcond, blendLoop_no_match c (now - c.timestamp) now rows hrows]
    rfl
  · intro rows
    simp only [blendCurrent]
    rw [if_pos hcond]
    exact List.sorted_insertionSort rowsDescRel _

/-- The open segment of the C5 witness: `firefox` since time `0`. -/
def currFirefox : CurrentState :=
  { wm_class := "firefox", title := "doc", timestamp := 0, is_idle := false }

/-- A persisted summary group matching the C5 witness's open segment. -/
def rowFirefox : SummaryRow :=
  { wm_class := "firefox", title := "doc", total_secs := 100, event_count := 3,
    first_seen := 0, last_seen := 50 }

/-- A persisted summary group not matching the C5 witness's open segment. -/
def rowCode : SummaryRow :=
  { wm_class := "code", title := "a", total_secs := 500, event_count := 2,
    first_seen := 0, last_seen := 40 }

/-- Closed witness for C5: blending the open `firefox` segment (elapsed 10s)
into `[rowCode, rowFirefox]` yields the `firefox` group at `110` seconds and
count `4`, re-sorted descending. -/
theorem c5_live_blend_witness :
    rowKeyMatches rowCode currFirefox = false ∧
    rowKeyMatches rowFirefox currFirefox = true ∧
    blendCurrent ([rowCode] ++ rowFirefox :: []) (some currFirefox) 10 =
      sortRowsDesc ([rowCode] ++ { rowFirefox with
        total_secs := rowFirefox.total_secs + (10 - currFirefox.timestamp),
        event_count := rowFirefox.event_count + 1,
        last_seen := 10 } :: []) ∧
    List.Sorted rowsDescRel (blendCurrent [rowCode, rowFirefox] (some currFirefox) 10) :=
  ⟨by decide, by decide,
   (c5_live_blend currFirefox 10 rfl (by decide) (by decide)).1 [rowCode] rowFirefox []
     (by intro r' hr'
         simp only [List.mem_singleton] at hr'
         rw [hr']
         decide)
     (by decide),
   (c5_live_blend currFirefox 10 rfl (by decide) (by decide)).2.2 [rowCode, rowFirefox]⟩

/-- The `last_app` register after processing one timeline row, as `get_metrics`
leaves it: `None` after an idle row, the row's class otherwise. -/
def lastAppOf (r : TimelineRow) : Option String :=
  if r.is_idle then none else some r.wm_class

/-- Proof helper: the running switch count of the loop, given the
`last_app` register, independent of the accumulators. -/
def switchCountFrom : Option String → List TimelineRow → ℕ
  | _, [] => 0
  | la, r :: rest =>
    if r.is_idle then switchCountFrom none rest
    else (if la ≠ none ∧ la ≠ some r.wm_class then 1 else 0) +
      switchCountFrom (some r.wm_class) rest

/-- The switch component of `metricsLoop` is its starting value plus the
switch count from the current register (independent of the accumulators). -/
theorem metricsLoop_fst (rows : List TimelineRow) :
    ∀ (la : Option String) (sw : ℕ) (act : ℚ),
      (metricsLoop rows la sw act).1 = sw + switchCountFrom la rows := by
  induction rows with
  | nil => intro la sw act; simp [metricsLoop, switchCountFrom]
  | cons r rest ih =>
    intro la sw act
    unfold metricsLoop switchCountFrom
    by_cases h : r.is_idle
    · rw [if_pos h, if_pos h, ih none sw act]
    · rw [if_neg h, if_neg h]
      by_cases hla : la ≠ none ∧ la ≠ some r.wm_class
      · rw [if_pos hla, if_pos hla,
          ih (some r.wm_class) (sw + 1) (act + r.duration_secs)]
        omega
      · rw [if_neg hla, if_neg hla,
          ih (some r.wm_class) sw (act + r.duration_secs)]
        omega

/-- Counting from the register left by a row `a` counts exactly the
adjacent-pair switches of `a :: rest`. -/
theorem switchCountFrom_spec :
    ∀ (rest : List TimelineRow) (a : TimelineRow),
      switchCountFrom (lastAppOf a) rest = specSwitchCount (a :: rest)
  | [], a => by simp [switchCountFrom, specSwitchCount]
  | b :: rest, a => by
    rw [specSwitchCount]
    unfold switchCountFrom
    by_cases hb : b.is_idle
    · have h0 : (if a.is_idle = false ∧ b.is_idle = false ∧
          a.wm_class ≠ b.wm_class then 1 else 0) = 0 := by simp [hb]
      have h1 : switchCountFrom none rest = switchCountFrom (lastAppOf b) rest := by
        rw [lastAppOf, if_pos hb]
      rw [if_pos hb, h0, h1, switchCountFrom_spec rest b, Nat.zero_add]
    · have h1 : switchCountFrom (some b.wm_class) rest =
          switchCountFrom (lastAppOf b) rest := by
        rw [lastAppOf, if_neg hb]
      rw [if_neg hb, h1, switchCountFrom_spec rest b]
      congr 1
      by_cases ha : a.is_idle
      · have hla : lastAppOf a = none := by rw [lastAppOf, if_pos ha]
        simp [hla, ha]
      · have hla : lastAppOf a = some a.wm_class := by rw [lastAppOf, if_neg ha]
        simp only [hla, ha, hb, Ne, Option.some.injEq]
        simp

/-- C9.  The context-switch metric counts exactly the adjacent pairs of
non-idle timeline blocks with differing identities (idle blocks reset the
"previous app", so a transition immediately after an idle block is never
counted), and the focus score is the fixed penalty `max(0, 100 - 2×count)`,
which is monotonically non-increasing in the switch count and never
negative. -/
theorem c9_context_switch_metric (rows : List TimelineRow) :
    contextSwitches rows = specSwitchCount rows ∧
    focusScore rows = focusScoreOf (specSwitchCount rows) ∧
    (∀ n m : ℕ, n ≤ m → focusScoreOf m ≤ focusScoreOf n ∧ 0 ≤ focusScoreOf n) := by
  have hcount : contextSwitches rows = specSwitchCount rows := by
    cases rows with
    | nil => rfl
    | cons a rest =>
      unfold contextSwitches
      rw [metricsLoop_fst (a :: rest) none 0 0, Nat.zero_add]
      unfold switchCountFrom
      by_cases ha : a.is_idle
      · rw [if_pos ha,
          show switchCountFrom none rest = switchCountFrom (lastAppOf a) rest by
            rw [lastAppOf, if_pos ha],
          switchCountFrom_spec rest a]
      · rw [if_neg ha, if_neg (by simp), Nat.zero_add,
          show switchCountFrom (some a.wm_class) rest =
              switchCountFrom (lastAppOf a) rest by
            rw [lastAppOf, if_neg ha],
          switchCountFrom_spec rest a]
  refine ⟨hcount, by rw [focusScore, hcount], ?_⟩
  intro n m hnm
  constructor
  · exact max_le_max (le_refl 0) (by omega)
  · exact le_max_left 0 _

/-- The timeline of the C9 witness: `A, B, idle, B, A` (two switches: `A→B`
and `B→A` after the idle reset is re-seeded by the second `B`). -/
def tlRows : List TimelineRow :=
  [{ wm_class := "A", is_idle := false, duration_secs := 5 },
   { wm_class := "B", is_idle := false, duration_secs := 5 },
   { wm_class := "__idle__", is_idle := true, duration_secs := 5 },
   { wm_class := "B", is_idle := false, duration_secs := 5 },
   { wm_class := "A", is_idle := false, duration_secs := 5 }]

/-- Closed witness for C9. -/
theorem c9_context_switch_metric_witness :
    contextSwitches tlRows = specSwitchCount tlRows ∧
    specSwitchCount tlRows = 2 ∧
    focusScore tlRows = focusScoreOf (specSwitchCount tlRows) ∧
    ((3:ℕ) ≤ 5) ∧ focusScoreOf 5 ≤ focusScoreOf 3 ∧ 0 ≤ focusScoreOf 3 :=
  ⟨(c9_context_switch_metric tlRows).1, by decide,
   (c9_context_switch_metric tlRows).2.1, by decide,
   ((c9_context_switch_metric tlRows).2.2 3 5 (by decide)).1,
   ((c9_context_switch_metric tlRows).2.2 3 5 (by decide)).2⟩

end ATracker
